import Mathlib

/-!
# The audio HAL's RIL shim (`hal/ril_interface.c`)

A shallow embedding of the seven functions of `ril_interface.c` and the
properties of its connection lifecycle and of its forwarding operations.

* A C pointer is a natural number, `0` being `NULL`.
* A C `int` is an `Int`; a C `float` is the rational number it denotes.
* The vendor client library (`SecRil*`, `*_RILD`, `Set*`) is not part of the
  repository: every call into it is appended to a log, and its return value is
  read from an arbitrary oracle `Vendor`, which may depend on the whole history
  of calls made so far and on the arguments of the call.
* `ALOGE`, `ALOGV` and `strerror` only write log text and are left out.
-/

namespace RilInterface

/-! ## Data model -/

/-- The `struct ril_handle` of `ril_interface.h`: the vendor client handle and
the cached number of volume steps. -/
structure ril_handle where
  client : Nat
  volume_steps_max : Int
deriving DecidableEq, Repr

/-- One call into the vendor client library, with its arguments. -/
inductive Call where
  | SecRilOpen
  | OpenClient_RILD
  | SecRilCheckConnection (client : Nat)
  | isConnected_RILD (client : Nat)
  | Connect_RILD (client : Nat)
  | Disconnect_RILD (client : Nat)
  | CloseClient_RILD (client : Nat)
  | SecRilSetVoiceVolume (client : Nat) (sound_type : Int) (volume : ℚ)
  | SetCallVolume (client : Nat) (sound_type : Int) (vol_level : Int)
  | SecRilSetVoicePath (client : Nat) (path : Int) (origin : Int)
  | SetCallAudioPath (client : Nat) (path : Int)
  | SetCallClockSync (client : Nat) (condition : Int)
  | SecRilSetTxMute (client : Nat) (state : Bool)
  | SecRilSetRxMute (client : Nat) (state : Bool)
  | SetMute (client : Nat) (condition : Int)
deriving DecidableEq, Repr

/-- The world outside the module: what the vendor library answers to a call,
given the calls made before it, and the Android property store, which gives a
key its text when the property is set. -/
structure Vendor where
  handle : List Call → Call → Nat
  status : List Call → Call → Int
  property : String → Option String

/-- Constants of `ril_interface.h` and of the vendor header, which the source
file uses by name only. -/
structure Consts where
  RIL_CLIENT_ERR_SUCCESS : Int
  ORIGINAL_PATH : Int
  TX_UNMUTE : Int
  TX_MUTE : Int
  RX_UNMUTE : Int
  RX_MUTE : Int
  RXTX_UNMUTE : Int
  RXTX_MUTE : Int

/-- The case labels of the `switch` in `ril_set_mute` are pairwise different
(a C `switch` cannot have two equal labels). -/
def Consts.muteDistinct (K : Consts) : Prop :=
  [K.TX_UNMUTE, K.TX_MUTE, K.RX_UNMUTE, K.RX_MUTE, K.RXTX_UNMUTE, K.RXTX_MUTE].Nodup

instance (K : Consts) : Decidable K.muteDistinct := by
  unfold Consts.muteDistinct; infer_instance

/-- A vendor call returning an `int`: the call is logged and the oracle
answers. -/
def callInt (V : Vendor) (c : Call) (log : List Call) : Int × List Call :=
  (V.status log c, log ++ [c])

/-- A vendor call returning a handle. -/
def callPtr (V : Vendor) (c : Call) (log : List Call) : Nat × List Call :=
  (V.handle log c, log ++ [c])

/-- What a function taking `struct ril_handle *ril` leaves behind: its return
value, the structure, and the log of vendor calls. -/
structure Ret where
  rc : Int
  ril : ril_handle
  log : List Call
deriving DecidableEq, Repr

/-! ## Single-precision arithmetic

The expression `(int)(volume * ril->volume_steps_max)` converts the `int` to
`float`, multiplies in single precision (IEEE 754 binary32, round to nearest,
ties to even) and truncates the product toward zero. -/

/-- Rounding to the nearest integer, ties to the even one. -/
def roundNearestEven (q : ℚ) : Int :=
  let f := ⌊q⌋
  if q - f < 1 / 2 then f
  else if 1 / 2 < q - f then f + 1
  else if f % 2 = 0 then f else f + 1

/-- The exponent of the unit in the last place of the binary32 numbers around
`q`: 24 significant bits, and `2 ^ (-149)` in the subnormal range. -/
def ulpExponent (q : ℚ) : Int := max (Int.log 2 |q|) (-126) - 23

/-- The binary32 number nearest to `q` (for `|q|` below the overflow
threshold `2 ^ 128`). -/
def f32_round (q : ℚ) : ℚ :=
  (roundNearestEven (q / 2 ^ ulpExponent q) : ℚ) * 2 ^ ulpExponent q

/-- The rational `q` is a binary32 number. -/
def isFloat (q : ℚ) : Prop := f32_round q = q

instance (q : ℚ) : Decidable (isFloat q) := by unfold isFloat; infer_instance

/-- The conversion `(float)n` of an `int`. -/
def float_of_int (n : Int) : ℚ := f32_round n

/-- The product `a * b` of two `float`s. -/
def float_mul (a b : ℚ) : ℚ := f32_round (a * b)

/-- The conversion `(int)x` of a `float`, truncation toward zero (defined by C
when the truncated value fits an `int`). -/
def int_of_float (x : ℚ) : Int := if 0 ≤ x then ⌊x⌋ else ⌈x⌉

/-! ## `atoi` -/

/-- The `isspace` of the C locale. -/
def isspace (c : Char) : Bool :=
  c = ' ' || c = '\t' || c = '\n' || c = '\r' || c.toNat = 11 || c.toNat = 12

/-- The digits at the head of the text, accumulated in base ten. -/
def atoiDigits : Nat → List Char → Nat
  | acc, [] => acc
  | acc, c :: cs => if c.isDigit then atoiDigits (10 * acc + (c.toNat - 48)) cs else acc

/-- The sign and digits after the leading white space. -/
def atoiSigned : List Char → Int
  | [] => 0
  | c :: cs =>
    if c = '-' then - (atoiDigits 0 cs : Int)
    else if c = '+' then (atoiDigits 0 cs : Int)
    else (atoiDigits 0 (c :: cs) : Int)

/-- Leading white space is skipped. -/
def atoiChars : List Char → Int
  | [] => 0
  | c :: cs => if isspace c then atoiChars cs else atoiSigned (c :: cs)

/-- The `atoi` of libc, for a text whose value fits an `int`: white space, an
optional sign, then decimal digits up to the first other character; `0` when
there is no digit. -/
def atoi (s : String) : Int := atoiChars s.data

/-- The `property_get(key, value, default_value)` of libcutils: the buffer
receives the text of the property, or the default when the property is not set
or is empty. -/
def property_get (V : Vendor) (key : String) (default_value : String) : String :=
  match V.property key with
  | some value => if value.length > 0 then value else default_value
  | none => default_value

def VOLUME_STEPS_DEFAULT : String := "5"
def VOLUME_STEPS_PROPERTY : String := "ro.config.vc_call_vol_steps"

/-! ## The functions of `ril_interface.c` -/

/-- `static int ril_connect_if_required(struct ril_handle *ril)` -/
def ril_connect_if_required (K : Consts) (V : Vendor) (ril : ril_handle)
    (log : List Call) : Ret :=
  if ril.client = 0 then ⟨-1, ril, log⟩
  else
    let (ok, log) := callInt V (.isConnected_RILD ril.client) log
    if ok ≠ 0 then ⟨0, ril, log⟩
    else
      let (rc, log) := callInt V (.Connect_RILD ril.client) log
      if rc ≠ K.RIL_CLIENT_ERR_SUCCESS then ⟨-1, ril, log⟩
      else ⟨0, ril, log⟩

/-- `int ril_open(struct ril_handle *ril)`; `none` is the `NULL` argument. -/
def ril_open (V : Vendor) (ril : Option ril_handle) (log : List Call) :
    Int × Option ril_handle × List Call :=
  match ril with
  | none => (-1, none, log)
  | some ril =>
    let (p, log) := callPtr V .SecRilOpen log
    let ril := { ril with client := p }
    let (p, log) := callPtr V .OpenClient_RILD log
    let ril := { ril with client := p }
    if ril.client = 0 then (-1, some ril, log)
    else
      let (_, log) := callInt V (.SecRilCheckConnection ril.client) log
      let property := property_get V VOLUME_STEPS_PROPERTY VOLUME_STEPS_DEFAULT
      let ril := { ril with volume_steps_max := atoi property }
      let ril :=
        if ril.volume_steps_max = 0 then
          { ril with volume_steps_max := atoi VOLUME_STEPS_DEFAULT }
        else ril
      (0, some ril, log)

/-- `int ril_close(struct ril_handle *ril)`; `none` is the `NULL` argument. -/
def ril_close (K : Consts) (V : Vendor) (ril : Option ril_handle) (log : List Call) :
    Int × Option ril_handle × List Call :=
  match ril with
  | none => (-1, none, log)
  | some ril =>
    if ril.client = 0 then (-1, some ril, log)
    else
      let (rc, log) := callInt V (.Disconnect_RILD ril.client) log
      if rc ≠ K.RIL_CLIENT_ERR_SUCCESS then (-1, some ril, log)
      else
        let (rc, log) := callInt V (.CloseClient_RILD ril.client) log
        if rc ≠ K.RIL_CLIENT_ERR_SUCCESS then (-1, some ril, log)
        else (0, some { ril with client := 0 }, log)

/-- `int ril_set_call_volume(struct ril_handle *ril, enum _SoundType sound_type,
float volume)`, for a non-`NULL` `ril`. -/
def ril_set_call_volume (K : Consts) (V : Vendor) (ril : ril_handle)
    (sound_type : Int) (volume : ℚ) (log : List Call) : Ret :=
  let r := ril_connect_if_required K V ril log
  if r.rc ≠ 0 then ⟨0, r.ril, r.log⟩
  else
    let ril := r.ril
    let (_, log) := callInt V (.SecRilSetVoiceVolume ril.client sound_type volume) r.log
    let (rc, log) := callInt V (.SetCallVolume ril.client sound_type
      (int_of_float (float_mul volume (float_of_int ril.volume_steps_max)))) log
    ⟨rc, ril, log⟩

/-- `int ril_set_call_audio_path(struct ril_handle *ril, enum _AudioPath path)`,
for a non-`NULL` `ril`. -/
def ril_set_call_audio_path (K : Consts) (V : Vendor) (ril : ril_handle)
    (path : Int) (log : List Call) : Ret :=
  let r := ril_connect_if_required K V ril log
  if r.rc ≠ 0 then ⟨0, r.ril, r.log⟩
  else
    let ril := r.ril
    let (_, log) := callInt V (.SecRilSetVoicePath ril.client path K.ORIGINAL_PATH) r.log
    let (rc, log) := callInt V (.SetCallAudioPath ril.client path) log
    ⟨rc, ril, log⟩

/-- `int ril_set_call_clock_sync(struct ril_handle *ril,
enum _SoundClockCondition condition)`, for a non-`NULL` `ril`. -/
def ril_set_call_clock_sync (K : Consts) (V : Vendor) (ril : ril_handle)
    (condition : Int) (log : List Call) : Ret :=
  let r := ril_connect_if_required K V ril log
  if r.rc ≠ 0 then ⟨0, r.ril, r.log⟩
  else
    let ril := r.ril
    let (rc, log) := callInt V (.SetCallClockSync ril.client condition) r.log
    ⟨rc, ril, log⟩

/-- The `switch (condition)` of `ril_set_mute`: the value of `rc` and the log
after it. -/
def muteSwitch (K : Consts) (V : Vendor) (client : Nat) (condition : Int)
    (rc : Int) (log : List Call) : Int × List Call :=
  if condition = K.TX_UNMUTE then callInt V (.SecRilSetTxMute client false) log
  else if condition = K.TX_MUTE then callInt V (.SecRilSetTxMute client true) log
  else if condition = K.RX_UNMUTE then callInt V (.SecRilSetRxMute client false) log
  else if condition = K.RX_MUTE then callInt V (.SecRilSetRxMute client true) log
  else if condition = K.RXTX_UNMUTE then
    let (_, log) := callInt V (.SecRilSetRxMute client false) log
    callInt V (.SecRilSetTxMute client false) log
  else if condition = K.RXTX_MUTE then
    let (_, log) := callInt V (.SecRilSetRxMute client true) log
    callInt V (.SecRilSetTxMute client true) log
  else (rc, log)

/-- `int ril_set_mute(struct ril_handle *ril, enum _MuteCondition condition)`,
for a non-`NULL` `ril`. -/
def ril_set_mute (K : Consts) (V : Vendor) (ril : ril_handle)
    (condition : Int) (log : List Call) : Ret :=
  let r := ril_connect_if_required K V ril log
  if r.rc ≠ 0 then ⟨0, r.ril, r.log⟩
  else
    let ril := r.ril
    let (_, log) := muteSwitch K V ril.client condition r.rc r.log
    let (rc, log) := callInt V (.SetMute ril.client condition) log
    ⟨rc, ril, log⟩

/-! ## Sequences of operations on one handle -/

/-- The operations a caller can apply to an open or closed handle, other than
`ril_open`. -/
inductive Op where
  | set_call_volume (sound_type : Int) (volume : ℚ)
  | set_call_audio_path (path : Int)
  | set_mute (condition : Int)
  | set_call_clock_sync (condition : Int)
  | close
deriving DecidableEq, Repr

/-- One operation applied to the structure `ril` points to; the return value
is dropped, the structure and the log are kept. -/
def applyOp (K : Consts) (V : Vendor) (s : ril_handle × List Call) :
    Op → ril_handle × List Call
  | .set_call_volume sound_type volume =>
    let r := ril_set_call_volume K V s.1 sound_type volume s.2
    (r.ril, r.log)
  | .set_call_audio_path path =>
    let r := ril_set_call_audio_path K V s.1 path s.2
    (r.ril, r.log)
  | .set_mute condition =>
    let r := ril_set_mute K V s.1 condition s.2
    (r.ril, r.log)
  | .set_call_clock_sync condition =>
    let r := ril_set_call_clock_sync K V s.1 condition s.2
    (r.ril, r.log)
  | .close =>
    match ril_close K V (some s.1) s.2 with
    | (_, some ril, log) => (ril, log)
    | (_, none, log) => (s.1, log)

/-- A sequence of operations, applied from left to right. -/
def applyOps (K : Consts) (V : Vendor) (s : ril_handle × List Call) (ops : List Op) :
    ril_handle × List Call :=
  ops.foldl (applyOp K V) s

/-! ## Concrete inputs -/

/-- One choice of the header constants: success is `0` and the mute conditions
are numbered from `0`. -/
def K0 : Consts :=
  { RIL_CLIENT_ERR_SUCCESS := 0, ORIGINAL_PATH := 0,
    TX_UNMUTE := 0, TX_MUTE := 1, RX_UNMUTE := 2, RX_MUTE := 3,
    RXTX_UNMUTE := 4, RXTX_MUTE := 5 }

/-- A vendor library in which every call succeeds: handle `7`, connected,
status `0`; no property is set. -/
def vendorOk : Vendor :=
  { handle := fun _ _ => 7,
    status := fun _ c => match c with
      | .isConnected_RILD _ => 1
      | _ => 0,
    property := fun _ => none }

/-- A vendor library that opens no client and rejects every call. -/
def vendorDown : Vendor :=
  { handle := fun _ _ => 0,
    status := fun _ c => match c with
      | .isConnected_RILD _ => 0
      | _ => 1,
    property := fun _ => none }

/-- A vendor library that is connected and whose every other call fails with
status `1`. -/
def vendorFailing : Vendor :=
  { handle := fun _ _ => 7,
    status := fun _ _ => 1,
    property := fun _ => none }

/-- A vendor library in which every call succeeds and the volume-step property
is set to the text `-3`. -/
def vendorNegativeSteps : Vendor :=
  { handle := fun _ _ => 7,
    status := fun _ c => match c with
      | .isConnected_RILD _ => 1
      | _ => 0,
    property := fun _ => some "-3" }

/-! ## Lemmas on the connection check -/

/-- The connection check, with the two vendor calls written out. -/
theorem connect_eq (K : Consts) (V : Vendor) (ril : ril_handle) (log : List Call) :
    ril_connect_if_required K V ril log =
      if ril.client = 0 then ⟨-1, ril, log⟩
      else if V.status log (.isConnected_RILD ril.client) ≠ 0 then
        ⟨0, ril, log ++ [.isConnected_RILD ril.client]⟩
      else if V.status (log ++ [.isConnected_RILD ril.client]) (.Connect_RILD ril.client) ≠
          K.RIL_CLIENT_ERR_SUCCESS then
        ⟨-1, ril, log ++ [.isConnected_RILD ril.client, .Connect_RILD ril.client]⟩
      else ⟨0, ril, log ++ [.isConnected_RILD ril.client, .Connect_RILD ril.client]⟩ := by
  simp only [ril_connect_if_required, callInt, List.append_assoc, List.singleton_append]

/-- With an empty client handle the connection check fails and calls nothing. -/
theorem connect_null (K : Consts) (V : Vendor) (ril : ril_handle) (log : List Call)
    (h : ril.client = 0) : ril_connect_if_required K V ril log = ⟨-1, ril, log⟩ := by
  simp [connect_eq, h]

/-- The connection check never writes to the structure. -/
theorem connect_ril (K : Consts) (V : Vendor) (ril : ril_handle) (log : List Call) :
    (ril_connect_if_required K V ril log).ril = ril := by
  rw [connect_eq]
  split_ifs <;> rfl

/-! ## The connection check (C8) -/

/-- C8: with a non-empty client handle, `ril_connect_if_required` asks
`isConnected_RILD` exactly once; when that reports connected nothing else is
called and the result is `0`; when it reports not connected `Connect_RILD` is
called exactly once and the result is `0` exactly when it returned
`RIL_CLIENT_ERR_SUCCESS` (and `-1` otherwise). The structure, and so the client
handle, is unchanged in every case. -/
theorem connect_if_required_spec (K : Consts) (V : Vendor) (ril : ril_handle)
    (log : List Call) (h : ril.client ≠ 0) :
    (ril_connect_if_required K V ril log).ril = ril ∧
    (V.status log (.isConnected_RILD ril.client) ≠ 0 →
      (ril_connect_if_required K V ril log).rc = 0 ∧
      (ril_connect_if_required K V ril log).log = log ++ [.isConnected_RILD ril.client]) ∧
    (V.status log (.isConnected_RILD ril.client) = 0 →
      (ril_connect_if_required K V ril log).log =
        log ++ [.isConnected_RILD ril.client, .Connect_RILD ril.client] ∧
      ((ril_connect_if_required K V ril log).rc = 0 ↔
        V.status (log ++ [.isConnected_RILD ril.client]) (.Connect_RILD ril.client) =
          K.RIL_CLIENT_ERR_SUCCESS) ∧
      ((ril_connect_if_required K V ril log).rc ≠ 0 →
        (ril_connect_if_required K V ril log).rc = -1)) := by
  refine ⟨connect_ril K V ril log, ?_, ?_⟩
  · intro hc
    simp [connect_eq, h, hc]
  · intro hc
    rw [connect_eq]
    simp only [h, hc, if_false, ne_eq, not_true_eq_false]
    split_ifs with h1 <;> simp_all

/-- A connected client: one `isConnected_RILD` and the result `0`. A client that
is not connected and whose reconnection is rejected: one `isConnected_RILD`,
one `Connect_RILD` and the result `-1`. -/
theorem connect_if_required_spec_witness :
    (⟨7, 5⟩ : ril_handle).client ≠ 0 ∧
    (ril_connect_if_required K0 vendorOk ⟨7, 5⟩ []).ril = ⟨7, 5⟩ ∧
    (ril_connect_if_required K0 vendorOk ⟨7, 5⟩ []).rc = 0 ∧
    (ril_connect_if_required K0 vendorOk ⟨7, 5⟩ []).log = [.isConnected_RILD 7] ∧
    (ril_connect_if_required K0 vendorDown ⟨7, 5⟩ []).rc = -1 ∧
    (ril_connect_if_required K0 vendorDown ⟨7, 5⟩ []).log =
      [.isConnected_RILD 7, .Connect_RILD 7] :=
  ⟨by decide,
    (connect_if_required_spec K0 vendorOk ⟨7, 5⟩ [] (by decide)).1,
    ((connect_if_required_spec K0 vendorOk ⟨7, 5⟩ [] (by decide)).2.1 (by decide)).1,
    ((connect_if_required_spec K0 vendorOk ⟨7, 5⟩ [] (by decide)).2.1 (by decide)).2,
    ((connect_if_required_spec K0 vendorDown ⟨7, 5⟩ [] (by decide)).2.2 rfl).2.2 (by decide),
    ((connect_if_required_spec K0 vendorDown ⟨7, 5⟩ [] (by decide)).2.2 rfl).1⟩

/-! ## The forwarding operations, case by case

Each operation when the connection check fails (`_fail`) and when it succeeds
(`_ok`). -/

theorem set_call_volume_fail (K : Consts) (V : Vendor) (ril : ril_handle) (st : Int) (v : ℚ)
    (log : List Call) (h : (ril_connect_if_required K V ril log).rc ≠ 0) :
    ril_set_call_volume K V ril st v log =
      ⟨0, ril, (ril_connect_if_required K V ril log).log⟩ := by
  simp [ril_set_call_volume, h, connect_ril]

theorem set_call_audio_path_fail (K : Consts) (V : Vendor) (ril : ril_handle) (path : Int)
    (log : List Call) (h : (ril_connect_if_required K V ril log).rc ≠ 0) :
    ril_set_call_audio_path K V ril path log =
      ⟨0, ril, (ril_connect_if_required K V ril log).log⟩ := by
  simp [ril_set_call_audio_path, h, connect_ril]

theorem set_call_clock_sync_fail (K : Consts) (V : Vendor) (ril : ril_handle) (c : Int)
    (log : List Call) (h : (ril_connect_if_required K V ril log).rc ≠ 0) :
    ril_set_call_clock_sync K V ril c log =
      ⟨0, ril, (ril_connect_if_required K V ril log).log⟩ := by
  simp [ril_set_call_clock_sync, h, connect_ril]

theorem set_mute_fail (K : Consts) (V : Vendor) (ril : ril_handle) (c : Int)
    (log : List Call) (h : (ril_connect_if_required K V ril log).rc ≠ 0) :
    ril_set_mute K V ril c log =
      ⟨0, ril, (ril_connect_if_required K V ril log).log⟩ := by
  simp [ril_set_mute, h, connect_ril]

theorem set_call_volume_ok (K : Consts) (V : Vendor) (ril : ril_handle) (st : Int) (v : ℚ)
    (log : List Call) (h : (ril_connect_if_required K V ril log).rc = 0) :
    ril_set_call_volume K V ril st v log =
      ⟨V.status ((ril_connect_if_required K V ril log).log ++
          [.SecRilSetVoiceVolume ril.client st v])
          (.SetCallVolume ril.client st
            (int_of_float (float_mul v (float_of_int ril.volume_steps_max)))),
        ril,
        (ril_connect_if_required K V ril log).log ++
          [.SecRilSetVoiceVolume ril.client st v,
           .SetCallVolume ril.client st
            (int_of_float (float_mul v (float_of_int ril.volume_steps_max)))]⟩ := by
  simp [ril_set_call_volume, h, connect_ril, callInt]

theorem set_call_audio_path_ok (K : Consts) (V : Vendor) (ril : ril_handle) (path : Int)
    (log : List Call) (h : (ril_connect_if_required K V ril log).rc = 0) :
    ril_set_call_audio_path K V ril path log =
      ⟨V.status ((ril_connect_if_required K V ril log).log ++
          [.SecRilSetVoicePath ril.client path K.ORIGINAL_PATH])
          (.SetCallAudioPath ril.client path),
        ril,
        (ril_connect_if_required K V ril log).log ++
          [.SecRilSetVoicePath ril.client path K.ORIGINAL_PATH,
           .SetCallAudioPath ril.client path]⟩ := by
  simp [ril_set_call_audio_path, h, connect_ril, callInt]

theorem set_call_clock_sync_ok (K : Consts) (V : Vendor) (ril : ril_handle) (c : Int)
    (log : List Call) (h : (ril_connect_if_required K V ril log).rc = 0) :
    ril_set_call_clock_sync K V ril c log =
      ⟨V.status (ril_connect_if_required K V ril log).log (.SetCallClockSync ril.client c),
        ril,
        (ril_connect_if_required K V ril log).log ++ [.SetCallClockSync ril.client c]⟩ := by
  simp [ril_set_call_clock_sync, h, connect_ril, callInt]

theorem set_mute_ok (K : Consts) (V : Vendor) (ril : ril_handle) (c : Int)
    (log : List Call) (h : (ril_connect_if_required K V ril log).rc = 0) :
    ril_set_mute K V ril c log =
      ⟨V.status (muteSwitch K V ril.client c 0 (ril_connect_if_required K V ril log).log).2
          (.SetMute ril.client c),
        ril,
        (muteSwitch K V ril.client c 0 (ril_connect_if_required K V ril log).log).2 ++
          [.SetMute ril.client c]⟩ := by
  simp [ril_set_mute, h, connect_ril, callInt]

/-- The log after the `switch` of `ril_set_mute`, for pairwise different case
labels. -/
theorem muteSwitch_log (K : Consts) (V : Vendor) (client : Nat) (c rc : Int)
    (log : List Call) (hK : K.muteDistinct) :
    (c = K.TX_UNMUTE → (muteSwitch K V client c rc log).2 =
      log ++ [.SecRilSetTxMute client false]) ∧
    (c = K.TX_MUTE → (muteSwitch K V client c rc log).2 =
      log ++ [.SecRilSetTxMute client true]) ∧
    (c = K.RX_UNMUTE → (muteSwitch K V client c rc log).2 =
      log ++ [.SecRilSetRxMute client false]) ∧
    (c = K.RX_MUTE → (muteSwitch K V client c rc log).2 =
      log ++ [.SecRilSetRxMute client true]) ∧
    (c = K.RXTX_UNMUTE → (muteSwitch K V client c rc log).2 =
      log ++ [.SecRilSetRxMute client false, .SecRilSetTxMute client false]) ∧
    (c = K.RXTX_MUTE → (muteSwitch K V client c rc log).2 =
      log ++ [.SecRilSetRxMute client true, .SecRilSetTxMute client true]) ∧
    (c ∉ [K.TX_UNMUTE, K.TX_MUTE, K.RX_UNMUTE, K.RX_MUTE, K.RXTX_UNMUTE, K.RXTX_MUTE] →
      (muteSwitch K V client c rc log).2 = log) := by
  unfold Consts.muteDistinct at hK
  simp only [List.nodup_cons, List.mem_cons, List.mem_singleton, not_or, List.not_mem_nil,
    not_false_eq_true, List.nodup_nil, and_true] at hK
  obtain ⟨⟨h01, h02, h03, h04, h05⟩, ⟨h12, h13, h14, h15⟩, ⟨h23, h24, h25⟩, ⟨h34, h35⟩, h45⟩ := hK
  refine ⟨?_, ?_, ?_, ?_, ?_, ?_, ?_⟩
  · rintro rfl; simp [muteSwitch, callInt]
  · rintro rfl; simp [muteSwitch, callInt, Ne.symm h01]
  · rintro rfl; simp [muteSwitch, callInt, Ne.symm h02, Ne.symm h12]
  · rintro rfl; simp [muteSwitch, callInt, Ne.symm h03, Ne.symm h13, Ne.symm h23]
  · rintro rfl
    simp [muteSwitch, callInt, Ne.symm h04, Ne.symm h14, Ne.symm h24, Ne.symm h34]
  · rintro rfl
    simp [muteSwitch, callInt, Ne.symm h05, Ne.symm h15, Ne.symm h25, Ne.symm h35, Ne.symm h45]
  · intro hc
    simp only [List.mem_cons, List.mem_singleton, not_or, List.not_mem_nil, or_false] at hc
    obtain ⟨c0, c1, c2, c3, c4, c5⟩ := hc
    simp [muteSwitch, c0, c1, c2, c3, c4, c5]

/-! ## Mute conditions (C2) -/

/-- C2: when the connection check succeeds, `ril_set_mute` adds to the log
exactly the direction toggles of the table, followed by one `SetMute` with the
condition it was given: `TX_UNMUTE` and `TX_MUTE` toggle tx only, `RX_UNMUTE` and
`RX_MUTE` toggle rx only, `RXTX_UNMUTE` and `RXTX_MUTE` toggle both, and any
other value toggles nothing. The vendor's answers are arbitrary. -/
theorem set_mute_calls (K : Consts) (V : Vendor) (ril : ril_handle) (c : Int)
    (log : List Call) (hK : K.muteDistinct)
    (h : (ril_connect_if_required K V ril log).rc = 0) :
    (c = K.TX_UNMUTE → (ril_set_mute K V ril c log).log =
      (ril_connect_if_required K V ril log).log ++
        [.SecRilSetTxMute ril.client false, .SetMute ril.client c]) ∧
    (c = K.TX_MUTE → (ril_set_mute K V ril c log).log =
      (ril_connect_if_required K V ril log).log ++
        [.SecRilSetTxMute ril.client true, .SetMute ril.client c]) ∧
    (c = K.RX_UNMUTE → (ril_set_mute K V ril c log).log =
      (ril_connect_if_required K V ril log).log ++
        [.SecRilSetRxMute ril.client false, .SetMute ril.client c]) ∧
    (c = K.RX_MUTE → (ril_set_mute K V ril c log).log =
      (ril_connect_if_required K V ril log).log ++
        [.SecRilSetRxMute ril.client true, .SetMute ril.client c]) ∧
    (c = K.RXTX_UNMUTE → (ril_set_mute K V ril c log).log =
      (ril_connect_if_required K V ril log).log ++
        [.SecRilSetRxMute ril.client false, .SecRilSetTxMute ril.client false,
         .SetMute ril.client c]) ∧
    (c = K.RXTX_MUTE → (ril_set_mute K V ril c log).log =
      (ril_connect_if_required K V ril log).log ++
        [.SecRilSetRxMute ril.client true, .SecRilSetTxMute ril.client true,
         .SetMute ril.client c]) ∧
    (c ∉ [K.TX_UNMUTE, K.TX_MUTE, K.RX_UNMUTE, K.RX_MUTE, K.RXTX_UNMUTE, K.RXTX_MUTE] →
      (ril_set_mute K V ril c log).log =
        (ril_connect_if_required K V ril log).log ++ [.SetMute ril.client c]) := by
  obtain ⟨s0, s1, s2, s3, s4, s5, s6⟩ :=
    muteSwitch_log K V ril.client c 0 (ril_connect_if_required K V ril log).log hK
  rw [set_mute_ok K V ril c log h]
  refine ⟨?_, ?_, ?_, ?_, ?_, ?_, ?_⟩ <;> intro hc
  · simp [s0 hc]
  · simp [s1 hc]
  · simp [s2 hc]
  · simp [s3 hc]
  · simp [s4 hc]
  · simp [s5 hc]
  · simp [s6 hc]

/-- The scenario of the specification: `RXTX_MUTE` on a connected client
toggles rx and tx to muted and then forwards `RXTX_MUTE`; every call fails. -/
theorem set_mute_calls_witness :
    K0.muteDistinct ∧ (ril_connect_if_required K0 vendorFailing ⟨7, 5⟩ []).rc = 0 ∧
    (ril_set_mute K0 vendorFailing ⟨7, 5⟩ 5 []).log =
      [.isConnected_RILD 7, .SecRilSetRxMute 7 true, .SecRilSetTxMute 7 true, .SetMute 7 5] :=
  ⟨by decide, by decide,
    (set_mute_calls K0 vendorFailing ⟨7, 5⟩ 5 [] (by decide) (by decide)).2.2.2.2.2.1 rfl⟩

/-! ## A failed connection check (C3) -/

/-- C3: when `ril_connect_if_required` fails, each of the four forwarding
operations returns `0`, leaves the structure alone and adds no call to the log
of the connection check; that log has no call at all when the client handle is
empty, and otherwise holds exactly the rejected `isConnected_RILD` and
`Connect_RILD` pair. -/
theorem forward_connect_failed (K : Consts) (V : Vendor) (ril : ril_handle)
    (log : List Call) (st : Int) (v : ℚ) (path mc cc : Int)
    (h : (ril_connect_if_required K V ril log).rc ≠ 0) :
    ril_set_call_volume K V ril st v log =
      ⟨0, ril, (ril_connect_if_required K V ril log).log⟩ ∧
    ril_set_call_audio_path K V ril path log =
      ⟨0, ril, (ril_connect_if_required K V ril log).log⟩ ∧
    ril_set_mute K V ril mc log =
      ⟨0, ril, (ril_connect_if_required K V ril log).log⟩ ∧
    ril_set_call_clock_sync K V ril cc log =
      ⟨0, ril, (ril_connect_if_required K V ril log).log⟩ ∧
    (ril.client = 0 → (ril_connect_if_required K V ril log).log = log) ∧
    (ril.client ≠ 0 →
      V.status log (.isConnected_RILD ril.client) = 0 ∧
      V.status (log ++ [.isConnected_RILD ril.client]) (.Connect_RILD ril.client) ≠
        K.RIL_CLIENT_ERR_SUCCESS ∧
      (ril_connect_if_required K V ril log).log =
        log ++ [.isConnected_RILD ril.client, .Connect_RILD ril.client]) := by
  refine ⟨set_call_volume_fail K V ril st v log h, set_call_audio_path_fail K V ril path log h,
    set_mute_fail K V ril mc log h, set_call_clock_sync_fail K V ril cc log h, ?_, ?_⟩
  · intro h0
    rw [connect_null K V ril log h0]
  · intro h0
    rw [connect_eq] at h ⊢
    simp only [h0, if_false] at h ⊢
    split_ifs at h ⊢ with h1 h2 <;> simp_all

/-- A client that is not connected and whose reconnection is rejected. -/
theorem forward_connect_failed_witness :
    (ril_connect_if_required K0 vendorDown ⟨7, 5⟩ []).rc ≠ 0 ∧
    ril_set_call_volume K0 vendorDown ⟨7, 5⟩ 1 (3 / 5) [] =
      ⟨0, ⟨7, 5⟩, [.isConnected_RILD 7, .Connect_RILD 7]⟩ ∧
    ril_set_mute K0 vendorDown ⟨7, 5⟩ 5 [] =
      ⟨0, ⟨7, 5⟩, [.isConnected_RILD 7, .Connect_RILD 7]⟩ :=
  ⟨by decide,
    (forward_connect_failed K0 vendorDown ⟨7, 5⟩ [] 1 (3 / 5) 2 5 1 (by decide)).1,
    (forward_connect_failed K0 vendorDown ⟨7, 5⟩ [] 1 (3 / 5) 2 5 1 (by decide)).2.2.1⟩

/-! ## The returned status (C6) -/

/-- C6: when the connection check succeeds, each forwarding operation returns
the status the vendor gave to the last call it made: `SetCallVolume`,
`SetCallAudioPath`, `SetMute`, `SetCallClockSync`. The vendor is arbitrary, so
this holds for every status the earlier calls returned. -/
theorem forward_returns_last_status (K : Consts) (V : Vendor) (ril : ril_handle)
    (log : List Call) (st : Int) (v : ℚ) (path mc cc : Int)
    (h : (ril_connect_if_required K V ril log).rc = 0) :
    (∃ pre vol, (ril_set_call_volume K V ril st v log).log =
        pre ++ [.SetCallVolume ril.client st vol] ∧
      (ril_set_call_volume K V ril st v log).rc =
        V.status pre (.SetCallVolume ril.client st vol)) ∧
    (∃ pre, (ril_set_call_audio_path K V ril path log).log =
        pre ++ [.SetCallAudioPath ril.client path] ∧
      (ril_set_call_audio_path K V ril path log).rc =
        V.status pre (.SetCallAudioPath ril.client path)) ∧
    (∃ pre, (ril_set_mute K V ril mc log).log = pre ++ [.SetMute ril.client mc] ∧
      (ril_set_mute K V ril mc log).rc = V.status pre (.SetMute ril.client mc)) ∧
    (∃ pre, (ril_set_call_clock_sync K V ril cc log).log =
        pre ++ [.SetCallClockSync ril.client cc] ∧
      (ril_set_call_clock_sync K V ril cc log).rc =
        V.status pre (.SetCallClockSync ril.client cc)) := by
  rw [set_call_volume_ok K V ril st v log h, set_call_audio_path_ok K V ril path log h,
    set_mute_ok K V ril mc log h, set_call_clock_sync_ok K V ril cc log h]
  refine ⟨⟨(ril_connect_if_required K V ril log).log ++ [.SecRilSetVoiceVolume ril.client st v],
      int_of_float (float_mul v (float_of_int ril.volume_steps_max)), ?_, rfl⟩,
    ⟨(ril_connect_if_required K V ril log).log ++
      [.SecRilSetVoicePath ril.client path K.ORIGINAL_PATH], ?_, rfl⟩,
    ⟨(muteSwitch K V ril.client mc 0 (ril_connect_if_required K V ril log).log).2, rfl, rfl⟩,
    ⟨(ril_connect_if_required K V ril log).log, rfl, rfl⟩⟩
  · simp
  · simp

/-! ## Both legacy calls are attempted (C9) -/

/-- C9: when the connection check succeeds, `ril_set_call_volume` adds to the
log `SecRilSetVoiceVolume` and then `SetCallVolume`, once each, and
`ril_set_call_audio_path` adds `SecRilSetVoicePath` (with the path and
`ORIGINAL_PATH`) and then `SetCallAudioPath` (with the path), once each. The
vendor is arbitrary: the status of the first call does not matter. -/
theorem forward_both_calls (K : Consts) (V : Vendor) (ril : ril_handle)
    (log : List Call) (st : Int) (v : ℚ) (path : Int)
    (h : (ril_connect_if_required K V ril log).rc = 0) :
    (∃ vol, (ril_set_call_volume K V ril st v log).log =
      (ril_connect_if_required K V ril log).log ++
        [.SecRilSetVoiceVolume ril.client st v, .SetCallVolume ril.client st vol]) ∧
    (ril_set_call_audio_path K V ril path log).log =
      (ril_connect_if_required K V ril log).log ++
        [.SecRilSetVoicePath ril.client path K.ORIGINAL_PATH,
         .SetCallAudioPath ril.client path] := by
  rw [set_call_volume_ok K V ril st v log h, set_call_audio_path_ok K V ril path log h]
  exact ⟨⟨int_of_float (float_mul v (float_of_int ril.volume_steps_max)), rfl⟩, rfl⟩

theorem forward_returns_last_status_witness :
    (ril_connect_if_required K0 vendorFailing ⟨7, 5⟩ []).rc = 0 ∧
    ∃ pre, (ril_set_mute K0 vendorFailing ⟨7, 5⟩ 5 []).log = pre ++ [.SetMute 7 5] ∧
      (ril_set_mute K0 vendorFailing ⟨7, 5⟩ 5 []).rc = vendorFailing.status pre (.SetMute 7 5) :=
  ⟨by decide,
    (forward_returns_last_status K0 vendorFailing ⟨7, 5⟩ [] 1 (3 / 5) 2 5 1 (by decide)).2.2.1⟩

/-- The first call of each pair fails with status `1`; the second is made all
the same. -/
theorem forward_both_calls_witness :
    (ril_connect_if_required K0 vendorFailing ⟨7, 5⟩ []).rc = 0 ∧
    (ril_set_call_audio_path K0 vendorFailing ⟨7, 5⟩ 2 []).log =
      [.isConnected_RILD 7, .SecRilSetVoicePath 7 2 0, .SetCallAudioPath 7 2] :=
  ⟨by decide, (forward_both_calls K0 vendorFailing ⟨7, 5⟩ [] 1 (3 / 5) 2 (by decide)).2⟩

/-! ## Opening (C10, C7) -/

/-- `ril_open` on a non-`NULL` argument, with its vendor calls written out. -/
theorem open_eq (V : Vendor) (ril : ril_handle) (log : List Call) :
    ril_open V (some ril) log =
      if V.handle (log ++ [.SecRilOpen]) .OpenClient_RILD = 0 then
        (-1, some { ril with client := 0 }, log ++ [.SecRilOpen, .OpenClient_RILD])
      else
        (0,
          some ⟨V.handle (log ++ [.SecRilOpen]) .OpenClient_RILD,
            if atoi (property_get V VOLUME_STEPS_PROPERTY VOLUME_STEPS_DEFAULT) = 0 then
              atoi VOLUME_STEPS_DEFAULT
            else atoi (property_get V VOLUME_STEPS_PROPERTY VOLUME_STEPS_DEFAULT)⟩,
          log ++ [.SecRilOpen, .OpenClient_RILD,
            .SecRilCheckConnection (V.handle (log ++ [.SecRilOpen]) .OpenClient_RILD)]) := by
  simp only [ril_open, callPtr, callInt, List.append_assoc, List.singleton_append]
  split_ifs with h1 h2 <;> simp_all

/-- C10: for a non-`NULL` argument, `ril_open` returns `0` exactly when
`OpenClient_RILD` returns a non-empty handle, and the client handle it stores is
the one `OpenClient_RILD` returned. Neither the handle `SecRilOpen` returned nor
any status the vendor reported matters: two vendor libraries that agree on
`OpenClient_RILD` and on the property give the same result. -/
theorem open_decided_by_OpenClient (V : Vendor) (ril : ril_handle) (log : List Call) :
    ((ril_open V (some ril) log).1 = 0 ↔
      V.handle (log ++ [.SecRilOpen]) .OpenClient_RILD ≠ 0) ∧
    (∃ r, (ril_open V (some ril) log).2.1 = some r ∧
      r.client = V.handle (log ++ [.SecRilOpen]) .OpenClient_RILD) ∧
    (∀ V' : Vendor, (∀ l, V'.handle l .OpenClient_RILD = V.handle l .OpenClient_RILD) →
      V'.property = V.property →
      ril_open V' (some ril) log = ril_open V (some ril) log) := by
  refine ⟨?_, ?_, ?_⟩
  · rw [open_eq]
    split_ifs with h <;> simp [h]
  · rw [open_eq]
    by_cases h : V.handle (log ++ [.SecRilOpen]) .OpenClient_RILD = 0
    · rw [if_pos h]
      exact ⟨_, rfl, h.symm⟩
    · rw [if_neg h]
      exact ⟨_, rfl, rfl⟩
  · intro V' hh hp
    rw [open_eq, open_eq, hh]
    simp only [property_get, hp]

/-- With an empty client handle no operation calls the vendor or changes the
structure. -/
theorem applyOp_null (K : Consts) (V : Vendor) (ril : ril_handle) (log : List Call)
    (op : Op) (h : ril.client = 0) : applyOp K V (ril, log) op = (ril, log) := by
  have hc : (ril_connect_if_required K V ril log).rc ≠ 0 := by
    rw [connect_null K V ril log h]; simp
  have hl : (ril_connect_if_required K V ril log).log = log := by
    rw [connect_null K V ril log h]
  cases op with
  | set_call_volume st v => simp [applyOp, set_call_volume_fail K V ril st v log hc, hl]
  | set_call_audio_path path => simp [applyOp, set_call_audio_path_fail K V ril path log hc, hl]
  | set_mute c => simp [applyOp, set_mute_fail K V ril c log hc, hl]
  | set_call_clock_sync c => simp [applyOp, set_call_clock_sync_fail K V ril c log hc, hl]
  | close => simp [applyOp, ril_close, h]

/-- The same for a sequence of operations. -/
theorem applyOps_null (K : Consts) (V : Vendor) (ril : ril_handle) (log : List Call)
    (ops : List Op) (h : ril.client = 0) : applyOps K V (ril, log) ops = (ril, log) := by
  induction ops with
  | nil => rfl
  | cons op ops ih =>
    unfold applyOps at ih ⊢
    rw [List.foldl_cons, applyOp_null K V ril log op h]
    exact ih

/-- C7: when `OpenClient_RILD` returns no handle, `ril_open` returns `-1` and
stores the empty client handle, and after that every sequence of
`ril_set_call_volume`, `ril_set_call_audio_path`, `ril_set_mute`,
`ril_set_call_clock_sync` and `ril_close` leaves the log of vendor calls, and the
structure, as `ril_open` left them. -/
theorem open_failed_no_vendor_call (K : Consts) (V : Vendor) (ril : ril_handle)
    (log : List Call) (h : V.handle (log ++ [.SecRilOpen]) .OpenClient_RILD = 0) :
    ril_open V (some ril) log =
      (-1, some { ril with client := 0 }, log ++ [.SecRilOpen, .OpenClient_RILD]) ∧
    ∀ ops : List Op,
      applyOps K V ({ ril with client := 0 }, log ++ [.SecRilOpen, .OpenClient_RILD]) ops =
        ({ ril with client := 0 }, log ++ [.SecRilOpen, .OpenClient_RILD]) := by
  refine ⟨?_, fun ops => applyOps_null K V _ _ ops rfl⟩
  rw [open_eq, if_pos h]

theorem open_failed_no_vendor_call_witness :
    vendorDown.handle ([] ++ [.SecRilOpen]) .OpenClient_RILD = 0 ∧
    ril_open vendorDown (some ⟨9, 4⟩) [] =
      (-1, some ⟨0, 4⟩, [.SecRilOpen, .OpenClient_RILD]) ∧
    applyOps K0 vendorDown (⟨0, 4⟩, [.SecRilOpen, .OpenClient_RILD])
        [.set_mute 5, .set_call_volume 1 (3 / 5), .close, .set_call_clock_sync 1,
          .set_call_audio_path 2] =
      (⟨0, 4⟩, [.SecRilOpen, .OpenClient_RILD]) :=
  ⟨rfl, (open_failed_no_vendor_call K0 vendorDown ⟨9, 4⟩ [] rfl).1,
    (open_failed_no_vendor_call K0 vendorDown ⟨9, 4⟩ [] rfl).2 _⟩

/-! ## Closing (C1) -/

/-- `ril_close` on a structure with a non-empty client handle, with its vendor
calls written out. -/
theorem close_eq (K : Consts) (V : Vendor) (ril : ril_handle) (log : List Call)
    (h : ril.client ≠ 0) :
    ril_close K V (some ril) log =
      if V.status log (.Disconnect_RILD ril.client) ≠ K.RIL_CLIENT_ERR_SUCCESS then
        (-1, some ril, log ++ [.Disconnect_RILD ril.client])
      else if V.status (log ++ [.Disconnect_RILD ril.client]) (.CloseClient_RILD ril.client) ≠
          K.RIL_CLIENT_ERR_SUCCESS then
        (-1, some ril, log ++ [.Disconnect_RILD ril.client, .CloseClient_RILD ril.client])
      else
        (0, some { ril with client := 0 },
          log ++ [.Disconnect_RILD ril.client, .CloseClient_RILD ril.client]) := by
  simp only [ril_close, callInt, h, if_false, List.append_assoc, List.singleton_append]

/-- C1, as the code behaves: with a non-empty client handle, `ril_close`
returns `0` and empties the handle when `Disconnect_RILD` and `CloseClient_RILD`
both succeed; when `Disconnect_RILD` fails it returns `-1` without calling
`CloseClient_RILD`, and when `CloseClient_RILD` fails it returns `-1`; in both
failure cases the structure, client handle included, is left as it was. -/
theorem close_spec (K : Consts) (V : Vendor) (ril : ril_handle) (log : List Call)
    (h : ril.client ≠ 0) :
    (V.status log (.Disconnect_RILD ril.client) = K.RIL_CLIENT_ERR_SUCCESS →
      V.status (log ++ [.Disconnect_RILD ril.client]) (.CloseClient_RILD ril.client) =
        K.RIL_CLIENT_ERR_SUCCESS →
      ril_close K V (some ril) log =
        (0, some { ril with client := 0 },
          log ++ [.Disconnect_RILD ril.client, .CloseClient_RILD ril.client])) ∧
    (V.status log (.Disconnect_RILD ril.client) ≠ K.RIL_CLIENT_ERR_SUCCESS →
      ril_close K V (some ril) log =
        (-1, some ril, log ++ [.Disconnect_RILD ril.client])) ∧
    (V.status log (.Disconnect_RILD ril.client) = K.RIL_CLIENT_ERR_SUCCESS →
      V.status (log ++ [.Disconnect_RILD ril.client]) (.CloseClient_RILD ril.client) ≠
        K.RIL_CLIENT_ERR_SUCCESS →
      ril_close K V (some ril) log =
        (-1, some ril, log ++ [.Disconnect_RILD ril.client, .CloseClient_RILD ril.client])) := by
  rw [close_eq K V ril log h]
  refine ⟨fun h1 h2 => ?_, fun h1 => ?_, fun h1 h2 => ?_⟩
  · simp [h1, h2]
  · simp [h1]
  · simp [h1, h2]

theorem close_spec_witness :
    (7 : Nat) ≠ 0 ∧
    ril_close K0 vendorOk (some ⟨7, 5⟩) [] =
      (0, some ⟨0, 5⟩, [.Disconnect_RILD 7, .CloseClient_RILD 7]) :=
  ⟨by decide, (close_spec K0 vendorOk ⟨7, 5⟩ [] (by decide)).1 rfl rfl⟩

/-- C1 as stated fails: when `Disconnect_RILD` reports failure, `ril_close`
returns `-1` and the client handle is still the non-empty handle `7`. -/
theorem close_failure_keeps_handle :
    ril_close K0 vendorFailing (some ⟨7, 5⟩) [] = (-1, some ⟨7, 5⟩, [.Disconnect_RILD 7]) ∧
    (⟨7, 5⟩ : ril_handle).client ≠ 0 := by
  constructor
  · rfl
  · decide

/-! ## The volume steps read by `ril_open` (C5) -/

/-- The characters `Nat.digitChar` gives to the ten digits. -/
theorem digitChar_facts (m : Nat) (h : m < 10) :
    (Nat.digitChar m).isDigit = true ∧ (Nat.digitChar m).toNat - 48 = m ∧
    isspace (Nat.digitChar m) = false ∧ Nat.digitChar m ≠ '-' ∧ Nat.digitChar m ≠ '+' := by
  interval_cases m <;> decide

/-- The digits `Nat.toDigitsCore` puts in front of `ds` are read back by
`atoiDigits`, and the first of them is a digit. -/
theorem atoiDigits_toDigitsCore (f : Nat) : ∀ (n : Nat) (ds : List Char), n < f →
    (∃ k, ∀ acc, atoiDigits acc (Nat.toDigitsCore 10 f n ds) =
      atoiDigits (acc * 10 ^ k + n) ds) ∧
    (∃ m tl, m < 10 ∧ Nat.toDigitsCore 10 f n ds = Nat.digitChar m :: tl) := by
  induction f with
  | zero => intro n ds h; omega
  | succ f ih =>
    intro n ds h
    have hd := digitChar_facts (n % 10) (Nat.mod_lt _ (by norm_num))
    unfold Nat.toDigitsCore
    by_cases h0 : n / 10 = 0
    · simp only [h0, if_true]
      refine ⟨⟨1, fun acc => ?_⟩, ⟨n % 10, ds, Nat.mod_lt _ (by norm_num), rfl⟩⟩
      rw [atoiDigits, if_pos hd.1, hd.2.1]
      congr 1
      omega
    · simp only [h0, if_false]
      have hlt : n / 10 < f := by omega
      obtain ⟨⟨k, hk⟩, hm⟩ := ih (n / 10) (Nat.digitChar (n % 10) :: ds) hlt
      refine ⟨⟨k + 1, fun acc => ?_⟩, hm⟩
      rw [hk, atoiDigits, if_pos hd.1, hd.2.1]
      congr 1
      rw [pow_succ]
      have := Nat.div_add_mod n 10
      ring_nf
      ring_nf at this
      omega

/-- The text `Nat.repr n` is not empty, `atoi` reads `n` from it, and `-n` from
the text with a minus sign in front. -/
theorem atoi_repr (n : Nat) :
    (Nat.repr n).length > 0 ∧ atoi (Nat.repr n) = n ∧ atoi ("-" ++ Nat.repr n) = -(n : Int) := by
  obtain ⟨⟨k, hk⟩, ⟨m, tl, hm, htl⟩⟩ := atoiDigits_toDigitsCore (n + 1) n [] (Nat.lt_succ_self n)
  have hv : atoiDigits 0 (Nat.toDigits 10 n) = n := by
    unfold Nat.toDigits
    rw [hk 0]
    simp [atoiDigits]
  have hd := digitChar_facts m hm
  have h2 : Nat.toDigits 10 n = Nat.digitChar m :: tl := htl
  refine ⟨?_, ?_, ?_⟩
  · have : (Nat.repr n).length = (Nat.toDigits 10 n).length := rfl
    rw [this, h2]
    simp
  · have : (Nat.repr n).data = Nat.toDigits 10 n := rfl
    unfold atoi
    rw [this]
    rw [h2] at hv ⊢
    rw [atoiChars, hd.2.2.1]
    simp only [atoiSigned, hd.2.2.2.1, hd.2.2.2.2, if_false, hv, Bool.false_eq_true]
  · have : ("-" ++ Nat.repr n).data = '-' :: Nat.toDigits 10 n := rfl
    unfold atoi
    rw [this]
    have hs : isspace '-' = false := by decide
    rw [atoiChars, hs]
    simp only [atoiSigned, if_true, hv, Bool.false_eq_true, if_false]

/-- A text that starts with a character other than white space, a sign or a
digit has no number for `atoi` to read. -/
theorem atoi_not_numeric (c : Char) (cs : List Char) (hs : isspace c = false)
    (hm : c ≠ '-') (hp : c ≠ '+') (hd : c.isDigit = false) :
    atoi (String.mk (c :: cs)) = 0 := by
  simp [atoi, atoiChars, atoiSigned, atoiDigits, hs, hm, hp, hd]

/-- The volume steps `ril_open` stores when it succeeds. -/
theorem open_steps (V : Vendor) (ril : ril_handle) (log : List Call)
    (h : V.handle (log ++ [.SecRilOpen]) .OpenClient_RILD ≠ 0) :
    ril_open V (some ril) log =
      (0,
        some ⟨V.handle (log ++ [.SecRilOpen]) .OpenClient_RILD,
          if atoi (property_get V VOLUME_STEPS_PROPERTY VOLUME_STEPS_DEFAULT) = 0 then 5
          else atoi (property_get V VOLUME_STEPS_PROPERTY VOLUME_STEPS_DEFAULT)⟩,
        log ++ [.SecRilOpen, .OpenClient_RILD,
          .SecRilCheckConnection (V.handle (log ++ [.SecRilOpen]) .OpenClient_RILD)]) := by
  rw [open_eq, if_neg h]
  rfl

/-- C5, as the code behaves: after a successful `ril_open` the stored
`volume_steps_max` is `5` when the property is missing or empty, when `atoi`
reads `0` from its text (so for the text `0` and for a text that does not start
with a number), and is the configured integer when the text is the decimal
numeral of a positive `int`. A negative number is not replaced by the default:
the text of `-n` stores `-n`. -/
theorem open_volume_steps (V : Vendor) (ril : ril_handle) (log : List Call)
    (h : V.handle (log ++ [.SecRilOpen]) .OpenClient_RILD ≠ 0) :
    ∃ r, (ril_open V (some ril) log).1 = 0 ∧ (ril_open V (some ril) log).2.1 = some r ∧
      (V.property VOLUME_STEPS_PROPERTY = none → r.volume_steps_max = 5) ∧
      (V.property VOLUME_STEPS_PROPERTY = some "" → r.volume_steps_max = 5) ∧
      (V.property VOLUME_STEPS_PROPERTY = some "0" → r.volume_steps_max = 5) ∧
      (∀ t, V.property VOLUME_STEPS_PROPERTY = some t → atoi t = 0 →
        r.volume_steps_max = 5) ∧
      (∀ c cs, V.property VOLUME_STEPS_PROPERTY = some (String.mk (c :: cs)) →
        isspace c = false → c ≠ '-' → c ≠ '+' → c.isDigit = false →
        r.volume_steps_max = 5) ∧
      (∀ n : Nat, 0 < n → n < 2 ^ 31 →
        V.property VOLUME_STEPS_PROPERTY = some (Nat.repr n) → r.volume_steps_max = n) ∧
      (∀ n : Nat, 0 < n → n ≤ 2 ^ 31 →
        V.property VOLUME_STEPS_PROPERTY = some ("-" ++ Nat.repr n) →
        r.volume_steps_max = -(n : Int)) := by
  have hdef : atoi VOLUME_STEPS_DEFAULT = 5 := by decide
  have hzero : ∀ t, V.property VOLUME_STEPS_PROPERTY = some t → atoi t = 0 →
      (if atoi (property_get V VOLUME_STEPS_PROPERTY VOLUME_STEPS_DEFAULT) = 0 then (5 : Int)
        else atoi (property_get V VOLUME_STEPS_PROPERTY VOLUME_STEPS_DEFAULT)) = 5 := by
    intro t ht h0
    unfold property_get
    rw [ht]
    by_cases hl : t.length > 0
    · simp [hl, h0]
    · simp [hl, hdef]
  rw [open_steps V ril log h]
  refine ⟨_, rfl, rfl, ?_, ?_, ?_, ?_, ?_, ?_, ?_⟩
  · intro hp
    simp [property_get, hp, hdef]
  · intro hp
    exact hzero "" hp (by decide)
  · intro hp
    exact hzero "0" hp (by decide)
  · exact hzero
  · intro c cs hp hs hm hpl hd
    exact hzero _ hp (atoi_not_numeric c cs hs hm hpl hd)
  · intro n hn _ hp
    obtain ⟨hl, hv, _⟩ := atoi_repr n
    have hne : ((n : Nat) : Int) ≠ 0 := by omega
    simp [property_get, hp, hl, hv, hne]
  · intro n hn _ hp
    obtain ⟨hl, _, hv⟩ := atoi_repr n
    have hne : ((n : Nat) : Int) ≠ 0 := by omega
    have hl2 : ("-" ++ Nat.repr n).length > 0 := by
      rw [String.length_append]; omega
    unfold property_get
    rw [hp]
    simp only [hl2, if_true, hv, neg_eq_zero, hne, if_false]

/-- The scenario of the specification: with the property not set, opening
stores five volume steps. -/
theorem open_volume_steps_witness :
    vendorOk.handle ([] ++ [.SecRilOpen]) .OpenClient_RILD ≠ 0 ∧
    ∃ r, (ril_open vendorOk (some ⟨0, 0⟩) []).2.1 = some r ∧ r.volume_steps_max = 5 :=
  ⟨by decide,
    (open_volume_steps vendorOk ⟨0, 0⟩ [] (by decide)).elim
      fun r hr => ⟨r, hr.2.1, hr.2.2.1 rfl⟩⟩

/-- C5 as stated fails: with the property set to the negative number `-3`, a
successful `ril_open` stores `-3` and not the default `5`. -/
theorem open_negative_steps_kept :
    vendorNegativeSteps.property VOLUME_STEPS_PROPERTY = some "-3" ∧
    ril_open vendorNegativeSteps (some ⟨0, 0⟩) [] =
      (0, some ⟨7, -3⟩, [.SecRilOpen, .OpenClient_RILD, .SecRilCheckConnection 7]) := by
  constructor
  · rfl
  · decide

/-! ## Single-precision rounding -/

/-- Rounding to nearest stays between the floor and the ceiling. -/
theorem rne_floor_le (q : ℚ) : ⌊q⌋ ≤ roundNearestEven q := by
  unfold roundNearestEven
  simp only
  split_ifs <;> omega

/-- The upper half of `rne_floor_le`. -/
theorem rne_le_ceil (q : ℚ) : roundNearestEven q ≤ ⌈q⌉ := by
  unfold roundNearestEven
  simp only
  have hfc : ⌊q⌋ ≤ ⌈q⌉ := Int.floor_le_ceil q
  by_cases h : q - ⌊q⌋ < 1 / 2
  · rw [if_pos h]; exact hfc
  · have hne : (⌊q⌋ : ℚ) < q := by linarith
    have : ⌊q⌋ + 1 ≤ ⌈q⌉ := by
      have : ⌊q⌋ < ⌈q⌉ := by
        rw [Int.lt_ceil]
        exact hne
      omega
    rw [if_neg h]
    split_ifs <;> omega

/-- Rounding to nearest does not cross an integer. -/
theorem rne_bounds (q : ℚ) (a b : Int) (ha : (a : ℚ) ≤ q) (hb : q ≤ b) :
    a ≤ roundNearestEven q ∧ roundNearestEven q ≤ b :=
  ⟨le_trans (Int.le_floor.mpr ha) (rne_floor_le q), le_trans (rne_le_ceil q) (Int.ceil_le.mpr hb)⟩

/-- The binary exponent of a number below `2 ^ (n + 1)` is at most `n`. -/
theorem log2_le_of_lt (x : ℚ) (n : Nat) (h : |x| < 2 ^ (n + 1)) : Int.log 2 |x| ≤ n := by
  rcases eq_or_lt_of_le (abs_nonneg x) with h0 | h0
  · rw [← h0, Int.log_zero_right]
    exact Int.natCast_nonneg n
  · have := (Int.lt_zpow_iff_log_lt (b := 2) (by norm_num) h0 (x := (n : ℤ) + 1)).mp (by
      rw [zpow_add_one₀ (by norm_num), zpow_natCast, ← pow_succ]
      exact h)
    omega

/-- Below `2 ^ 24` the unit in the last place is at most `1`. -/
theorem ulpExponent_nonpos (x : ℚ) (h : |x| < 2 ^ 24) : ulpExponent x ≤ 0 := by
  have := log2_le_of_lt x 23 h
  unfold ulpExponent
  omega

/-- Below `2 ^ 24` rounding to binary32 does not cross an integer. -/
theorem f32_round_bounds (x : ℚ) (a b : Int) (h : |x| < 2 ^ 24) (ha : (a : ℚ) ≤ x)
    (hb : x ≤ b) : (a : ℚ) ≤ f32_round x ∧ f32_round x ≤ b := by
  have he := ulpExponent_nonpos x h
  obtain ⟨n, hn⟩ : ∃ n : Nat, ulpExponent x = -(n : Int) := ⟨(-ulpExponent x).toNat, by omega⟩
  unfold f32_round
  rw [hn]
  have hdiv : x / 2 ^ (-(n : Int)) = x * 2 ^ n := by
    rw [zpow_neg, zpow_natCast, div_inv_eq_mul]
  rw [hdiv]
  have hpos : (0 : ℚ) < 2 ^ n := by positivity
  have hA : ((a * 2 ^ n : Int) : ℚ) ≤ x * 2 ^ n := by
    push_cast
    exact mul_le_mul_of_nonneg_right ha hpos.le
  have hB : x * 2 ^ n ≤ ((b * 2 ^ n : Int) : ℚ) := by
    push_cast
    exact mul_le_mul_of_nonneg_right hb hpos.le
  obtain ⟨h1, h2⟩ := rne_bounds _ _ _ hA hB
  have h1q : ((a * 2 ^ n : Int) : ℚ) ≤ (roundNearestEven (x * 2 ^ n) : ℚ) := by exact_mod_cast h1
  have h2q : (roundNearestEven (x * 2 ^ n) : ℚ) ≤ ((b * 2 ^ n : Int) : ℚ) := by exact_mod_cast h2
  push_cast at h1q h2q
  rw [zpow_neg, zpow_natCast]
  constructor
  · rw [le_mul_inv_iff₀ hpos]; exact h1q
  · rw [mul_inv_le_iff₀ hpos]; exact h2q

/-- The unit in the last place of a number in the binade `[2 ^ e, 2 ^ (e + 1))`
of the normal range. -/
theorem ulpExponent_eq (q : ℚ) (e : Int) (h1 : (2 : ℚ) ^ e ≤ |q|) (h2 : |q| < 2 ^ (e + 1))
    (he : -126 ≤ e) : ulpExponent q = e - 23 := by
  have hpos : 0 < |q| := lt_of_lt_of_le (by positivity) h1
  have hlo : e ≤ Int.log 2 |q| := by
    apply (Int.zpow_le_iff_le_log (b := 2) (by norm_num) hpos).mp
    exact_mod_cast h1
  have hhi : Int.log 2 |q| < e + 1 := by
    apply (Int.lt_zpow_iff_log_lt (b := 2) (by norm_num) hpos).mp
    exact_mod_cast h2
  unfold ulpExponent
  omega

/-- A number closer than one half to the integer `z` rounds to `z`. -/
theorem rne_near (q : ℚ) (z : Int) (h : |q - z| < 1 / 2) : roundNearestEven q = z := by
  rw [abs_lt] at h
  obtain ⟨h1, h2⟩ := h
  unfold roundNearestEven
  simp only
  rcases le_or_lt (z : ℚ) q with hz | hz
  · have hf : ⌊q⌋ = z := by
      rw [Int.floor_eq_iff]
      constructor <;> linarith
    rw [hf, if_pos (by linarith)]
  · have hf : ⌊q⌋ = z - 1 := by
      rw [Int.floor_eq_iff]
      push_cast
      constructor <;> linarith
    rw [hf]
    push_cast
    rw [if_neg (by linarith), if_pos (by linarith)]
    omega

/-- Half way above an even integer `z` the rounding is `z`. -/
theorem rne_tie_even (q : ℚ) (z : Int) (h : q = z + 1 / 2) (hz : z % 2 = 0) :
    roundNearestEven q = z := by
  have hf : ⌊q⌋ = z := by
    rw [Int.floor_eq_iff]
    constructor <;> linarith
  unfold roundNearestEven
  simp only
  rw [hf, if_neg (by linarith), if_neg (by linarith), if_pos hz]

/-- The binary32 rounding of a number whose binade and rounded significand are
known. -/
theorem f32_round_eval (q : ℚ) (e z : Int) (h1 : (2 : ℚ) ^ e ≤ |q|) (h2 : |q| < 2 ^ (e + 1))
    (he : -126 ≤ e) (hz : roundNearestEven (q / 2 ^ (e - 23)) = z) :
    f32_round q = z * 2 ^ (e - 23) := by
  unfold f32_round
  rw [ulpExponent_eq q e h1 h2 he, hz]

/-- The numbers `2 ^ 24` and `-2 ^ 24` are binary32 numbers. -/
theorem f32_round_two_pow_24 :
    f32_round 16777216 = 16777216 ∧ f32_round (-16777216) = -16777216 := by
  constructor
  · rw [f32_round_eval _ 24 8388608 (by norm_num [abs_of_pos]) (by norm_num [abs_of_pos]) (by norm_num)
      (rne_near _ _ (by norm_num [abs_lt]))]
    norm_num
  · rw [f32_round_eval _ 24 (-8388608) (by norm_num [abs_of_neg]) (by norm_num [abs_of_neg]) (by norm_num)
      (rne_near _ _ (by norm_num [abs_lt]))]
    norm_num

/-- Every `int` of absolute value at most `2 ^ 24` converts to `float`
exactly. -/
theorem float_of_int_exact (n : Int) (h : |n| ≤ 2 ^ 24) : float_of_int n = n := by
  unfold float_of_int
  have hq : |(n : ℚ)| ≤ 2 ^ 24 := by exact_mod_cast h
  rcases lt_or_eq_of_le hq with hlt | heq
  · obtain ⟨h1, h2⟩ := f32_round_bounds (n : ℚ) n n hlt le_rfl le_rfl
    exact le_antisymm h2 h1
  · rcases abs_eq (by norm_num : (0 : ℚ) ≤ 2 ^ 24) |>.mp heq with h1 | h1
    · rw [h1]
      norm_num
      exact f32_round_two_pow_24.1
    · rw [h1]
      norm_num
      exact f32_round_two_pow_24.2

/-- For `0 ≤ x ≤ 2 ^ 24`, truncating the binary32 rounding of `x` gives the
floor of `x` or the next integer. -/
theorem trunc_round_bounds (x : ℚ) (h0 : 0 ≤ x) (h : x ≤ 2 ^ 24) :
    ⌊x⌋ ≤ int_of_float (f32_round x) ∧ int_of_float (f32_round x) ≤ ⌊x⌋ + 1 := by
  rcases lt_or_eq_of_le h with hlt | heq
  · have habs : |x| < 2 ^ 24 := by rwa [abs_of_nonneg h0]
    have hb : x ≤ ((⌊x⌋ + 1 : Int) : ℚ) := by
      push_cast
      exact (Int.lt_floor_add_one x).le
    obtain ⟨h1, h2⟩ := f32_round_bounds x ⌊x⌋ (⌊x⌋ + 1) habs (Int.floor_le x) hb
    have hnn : 0 ≤ f32_round x := le_trans (by exact_mod_cast Int.floor_nonneg.mpr h0) h1
    unfold int_of_float
    rw [if_pos hnn]
    refine ⟨Int.le_floor.mpr h1, ?_⟩
    have h3 : ((⌊f32_round x⌋ : Int) : ℚ) ≤ ((⌊x⌋ + 1 : Int) : ℚ) :=
      le_trans (Int.floor_le _) h2
    exact_mod_cast h3
  · rw [heq]
    norm_num
    rw [f32_round_two_pow_24.1]
    norm_num [int_of_float]

/-! ## The volume level forwarded by `ril_set_call_volume` (C4) -/

/-- C4, as the code behaves: for `0 ≤ v ≤ 1` and `|S| ≤ 2 ^ 24` steps, when the
connection check succeeds the level passed to `SetCallVolume` is the
single-precision product of `v` and `S` truncated toward zero. For `S ≥ 0` it
is `⌊v * S⌋` or `⌊v * S⌋ + 1`, and it is `⌊v * S⌋` when `v * S` is a binary32
number; for `S < 0` and `v * S` a binary32 number it is `⌈v * S⌉`. With five
steps and `v` the `float` nearest to `0.6` the level is `3`. -/
theorem set_call_volume_level (K : Consts) (V : Vendor) (ril : ril_handle)
    (log : List Call) (st : Int) (v : ℚ)
    (h : (ril_connect_if_required K V ril log).rc = 0)
    (hv0 : 0 ≤ v) (hv1 : v ≤ 1) (hS : |ril.volume_steps_max| ≤ 2 ^ 24) :
    ∃ vol : Int,
      (ril_set_call_volume K V ril st v log).log =
        (ril_connect_if_required K V ril log).log ++
          [.SecRilSetVoiceVolume ril.client st v, .SetCallVolume ril.client st vol] ∧
      vol = int_of_float (f32_round (v * ril.volume_steps_max)) ∧
      (0 ≤ ril.volume_steps_max →
        ⌊v * ril.volume_steps_max⌋ ≤ vol ∧ vol ≤ ⌊v * ril.volume_steps_max⌋ + 1) ∧
      (0 ≤ ril.volume_steps_max → isFloat (v * ril.volume_steps_max) →
        vol = ⌊v * ril.volume_steps_max⌋) ∧
      (ril.volume_steps_max < 0 → isFloat (v * ril.volume_steps_max) →
        vol = ⌈v * ril.volume_steps_max⌉) ∧
      (ril.volume_steps_max = 5 → v = f32_round (3 / 5) → vol = 3) := by
  rw [set_call_volume_ok K V ril st v log h]
  refine ⟨_, rfl, ?_, ?_, ?_, ?_, ?_⟩
  · rw [float_of_int_exact _ hS]
    rfl
  · intro hS0
    rw [float_of_int_exact _ hS]
    have hSq : (0 : ℚ) ≤ ril.volume_steps_max := by exact_mod_cast hS0
    have hSle : (ril.volume_steps_max : ℚ) ≤ 2 ^ 24 := by
      have := (abs_le.mp hS).2
      exact_mod_cast this
    have hx : v * ril.volume_steps_max ≤ 2 ^ 24 :=
      le_trans (mul_le_of_le_one_left hSq hv1) hSle
    exact trunc_round_bounds _ (mul_nonneg hv0 hSq) hx
  · intro hS0 hf
    rw [float_of_int_exact _ hS]
    have hSq : (0 : ℚ) ≤ ril.volume_steps_max := by exact_mod_cast hS0
    unfold float_mul
    rw [hf, int_of_float, if_pos (mul_nonneg hv0 hSq)]
  · intro hS0 hf
    rw [float_of_int_exact _ hS]
    have hSq : (ril.volume_steps_max : ℚ) ≤ 0 := by exact_mod_cast hS0.le
    unfold float_mul
    rw [hf, int_of_float]
    rcases eq_or_lt_of_le (mul_nonpos_of_nonneg_of_nonpos hv0 hSq) with h0 | h0
    · rw [h0]
      simp
    · rw [if_neg (not_le.mpr h0)]
  · intro h5 hv
    rw [float_of_int_exact _ hS, h5, hv]
    unfold float_mul
    rw [f32_round_eval (3 / 5) (-1) 10066330 (by norm_num [abs_of_pos])
      (by norm_num [abs_of_pos]) (by norm_num) (rne_near _ _ (by norm_num [abs_lt]))]
    norm_num
    rw [f32_round_eval _ 1 12582912 (by norm_num [abs_of_pos]) (by norm_num [abs_of_pos])
      (by norm_num) (rne_tie_even _ _ (by norm_num) (by norm_num))]
    norm_num [int_of_float]

/-- The `float` nearest to `0.6`, and its product with five steps. -/
theorem volume_scenario_values :
    f32_round (3 / 5) = 5033165 / 8388608 ∧
    int_of_float (float_mul (5033165 / 8388608) (float_of_int 5)) = 3 := by
  have h5 : float_of_int 5 = 5 := by
    have := float_of_int_exact 5 (by norm_num)
    simpa using this
  refine ⟨?_, ?_⟩
  · rw [f32_round_eval (3 / 5) (-1) 10066330 (by norm_num [abs_of_pos])
      (by norm_num [abs_of_pos]) (by norm_num) (rne_near _ _ (by norm_num [abs_lt]))]
    norm_num
  · rw [h5]
    unfold float_mul
    rw [f32_round_eval _ 1 12582912 (by norm_num [abs_of_pos]) (by norm_num [abs_of_pos])
      (by norm_num) (rne_tie_even _ _ (by norm_num) (by norm_num))]
    norm_num [int_of_float]

/-- The scenario of the specification: five steps and the `float` nearest to
`0.6` forward the level `3`. -/
theorem set_call_volume_level_witness :
    (ril_connect_if_required K0 vendorOk ⟨7, 5⟩ []).rc = 0 ∧
    (ril_set_call_volume K0 vendorOk ⟨7, 5⟩ 1 (5033165 / 8388608) []).log =
      [.isConnected_RILD 7, .SecRilSetVoiceVolume 7 1 (5033165 / 8388608),
        .SetCallVolume 7 1 3] := by
  obtain ⟨vol, hlog, _, _, _, _, h3⟩ :=
    set_call_volume_level K0 vendorOk ⟨7, 5⟩ [] 1 (5033165 / 8388608) (by decide)
      (by norm_num) (by norm_num) (by norm_num)
  have hvol : vol = 3 := h3 rfl volume_scenario_values.1.symm
  subst hvol
  exact ⟨by decide, hlog⟩

/-- C4 as stated fails. With six steps and the `float` nearest to `5 / 6`, a
volume between `0` and `1`, the level passed to `SetCallVolume` is `5`, while
`⌊v * 6⌋ = 4`: the single-precision product rounds up to `5.0`. With `-3`
steps, the value `ril_open` stores for the property text `-3`, and the volume
`1 / 2` the level is `-1`, while `⌊v * (-3)⌋ = -2`: the conversion truncates
toward zero. -/
theorem set_call_volume_not_floor :
    ((0 : ℚ) ≤ 13981013 / 16777216 ∧ (13981013 / 16777216 : ℚ) ≤ 1 ∧
      isFloat (13981013 / 16777216) ∧
      ril_set_call_volume K0 vendorOk ⟨7, 6⟩ 1 (13981013 / 16777216) [] =
        ⟨0, ⟨7, 6⟩, [.isConnected_RILD 7, .SecRilSetVoiceVolume 7 1 (13981013 / 16777216),
          .SetCallVolume 7 1 5]⟩ ∧
      ⌊(13981013 / 16777216 : ℚ) * 6⌋ = 4) ∧
    ((0 : ℚ) ≤ 1 / 2 ∧ (1 / 2 : ℚ) ≤ 1 ∧ isFloat (1 / 2) ∧
      ril_set_call_volume K0 vendorOk ⟨7, -3⟩ 1 (1 / 2) [] =
        ⟨0, ⟨7, -3⟩, [.isConnected_RILD 7, .SecRilSetVoiceVolume 7 1 (1 / 2),
          .SetCallVolume 7 1 (-1)]⟩ ∧
      ⌊(1 / 2 : ℚ) * (-3)⌋ = -2) := by
  have h6 : float_of_int 6 = 6 := by
    have := float_of_int_exact 6 (by norm_num)
    simpa using this
  have h3 : float_of_int (-3) = -3 := by
    have := float_of_int_exact (-3) (by norm_num)
    simpa using this
  have hvol6 : int_of_float (float_mul (13981013 / 16777216) (float_of_int 6)) = 5 := by
    rw [h6]
    unfold float_mul
    rw [f32_round_eval _ 2 10485760 (by norm_num [abs_of_pos]) (by norm_num [abs_of_pos])
      (by norm_num) (rne_near _ _ (by norm_num [abs_lt]))]
    norm_num [int_of_float]
  have hvol3 : int_of_float (float_mul (1 / 2) (float_of_int (-3))) = -1 := by
    rw [h3]
    unfold float_mul
    rw [f32_round_eval _ 0 (-12582912) (by norm_num [abs_of_neg]) (by norm_num [abs_of_neg])
      (by norm_num) (rne_near _ _ (by norm_num [abs_lt]))]
    norm_num [int_of_float]
    rw [Int.ceil_eq_iff]
    norm_num
  refine ⟨⟨by norm_num, by norm_num, ?_, ?_, ?_⟩, ⟨by norm_num, by norm_num, ?_, ?_, ?_⟩⟩
  · unfold isFloat
    rw [f32_round_eval _ (-1) 13981013 (by norm_num [abs_of_pos]) (by norm_num [abs_of_pos])
      (by norm_num) (rne_near _ _ (by norm_num [abs_lt]))]
    norm_num
  · rw [set_call_volume_ok K0 vendorOk ⟨7, 6⟩ 1 _ [] (by decide)]
    simp only [hvol6]
    rfl
  · rw [Int.floor_eq_iff]
    norm_num
  · unfold isFloat
    rw [f32_round_eval _ (-1) 8388608 (by norm_num [abs_of_pos]) (by norm_num [abs_of_pos])
      (by norm_num) (rne_near _ _ (by norm_num [abs_lt]))]
    norm_num
  · rw [set_call_volume_ok K0 vendorOk ⟨7, -3⟩ 1 _ [] (by decide)]
    simp only [hvol3]
    rfl
  · rw [Int.floor_eq_iff]
    norm_num

end RilInterface
